import Mathlib

/-!
Shallow embedding of the neon-wallet WalletConnect core: the N3 signing
facade in src/app/context/WalletConnect/helpers.js and the session
lifecycle controller in the WalletConnectContext provider.  External
collaborators (chain RPC, the WalletConnect transport, neon-js crypto,
durable storage) are modelled at their boundary; everything else is
translated from the source.
-/

namespace N3Helper

/-- One lowercase hexadecimal digit character, as produced by JavaScript
number-to-hex conversion. -/
def hexDigitChar (n : Nat) : Char :=
  if n < 10 then Char.ofNat (48 + n) else Char.ofNat (87 + n)

/-- Two lowercase hex characters encoding one byte. -/
def byteToHex (b : Nat) : String :=
  String.mk [hexDigitChar (b / 16 % 16), hexDigitChar (b % 16)]

/-- Hex encoding of a byte list, as in `randomBytes(16).toString('hex')`. -/
def bytesToHex : List Nat → String
  | [] => ""
  | b :: bs => byteToHex b ++ bytesToHex bs

/-- neon-js `u.str2hexstring`: hex encoding of the character codes of a
string, two hex digits per character, byte-range characters assumed. -/
def str2hexstring (s : String) : String :=
  bytesToHex (s.data.map Char.toNat)

/-- neon-js `u.num2hexstring` for a number that fits in `size` bytes:
`2 * size` hex characters, big endian unless `littleEndian` is set. -/
def num2hexstring (num size : Nat) (littleEndian : Bool) : String :=
  let bytesBE := (List.range size).map (fun i => num / 256 ^ (size - 1 - i) % 256)
  bytesToHex (if littleEndian then bytesBE.reverse else bytesBE)

/-- neon-js `u.num2VarInt`: variable-length integer encoding used for the
payload length in the signing envelope. -/
def num2VarInt (num : Nat) : String :=
  if num < 0xfd then num2hexstring num 1 false
  else if num ≤ 0xffff then "fd" ++ num2hexstring num 2 true
  else if num ≤ 0xffffffff then "fe" ++ num2hexstring num 4 true
  else "ff" ++ num2hexstring num 8 true

/-- The fields of a `wallet.Account` read by the facade. -/
structure Account where
  publicKey : String
  privateKey : String
  scriptHash : String
deriving Repr, DecidableEq

/-- Modelled from the spec: the external neon-js key model, where an
account's public key is derived from its private key.  `pubOf` is the
derivation, injective by construction. -/
def pubOf (privateKey : String) : String := "pub:" ++ privateKey

/-- Modelled from the spec: the unique valid signature over an envelope for
the key pair identified by a public key.  The external ECDSA scheme is
abstracted by this total function. -/
def mkSig (messageHex publicKey : String) : String :=
  "sig:" ++ publicKey ++ ":" ++ messageHex

/-- Modelled from the spec: external `wallet.sign(messageHex, privateKey)`
signs the envelope with the account's private key. -/
def walletSign (messageHex privateKey : String) : String :=
  mkSig messageHex (pubOf privateKey)

/-- Modelled from the spec: external `wallet.verify` recomputes signature
verification against the stored envelope, public key and signature, and
succeeds exactly on the signature produced for that envelope and key. -/
def walletVerify (messageHex data publicKey : String) : Bool :=
  data == mkSig messageHex publicKey

/-- The `SignedMessage` record returned by `signMessage`. -/
structure SignedMessage where
  publicKey : String
  data : String
  salt : String
  messageHex : String
deriving Repr, DecidableEq

/-- `N3Helper.signMessage`.  The `randomBytes(16)` call is modelled by
passing the random bytes as the `saltBytes` parameter. -/
def signMessage (account : Account) (message : String) (saltBytes : List Nat) :
    SignedMessage :=
  let salt := bytesToHex saltBytes
  let parameterHexString := str2hexstring (salt ++ message)
  let lengthHex := num2VarInt (parameterHexString.length / 2)
  let messageHex := "010001f0" ++ lengthHex ++ parameterHexString ++ "0000"
  { publicKey := account.publicKey
    data := walletSign messageHex account.privateKey
    salt := salt
    messageHex := messageHex }

/-- `N3Helper.verifyMessage`: a pure function of its argument record. -/
def verifyMessage (verifyArgs : SignedMessage) : Bool :=
  walletVerify verifyArgs.messageHex verifyArgs.data verifyArgs.publicKey

/-- Recognizer for lowercase hex digit characters. -/
def isHexChar (c : Char) : Bool :=
  "0123456789abcdef".data.contains c

/-- A string made only of lowercase hex digit characters. -/
def isHexString (s : String) : Bool :=
  s.data.all isHexChar

theorem byteToHex_length (b : Nat) : (byteToHex b).length = 2 := rfl

theorem bytesToHex_length (l : List Nat) :
    (bytesToHex l).length = 2 * l.length := by
  induction l with
  | nil => rfl
  | cons b bs ih =>
    simp [bytesToHex, String.length_append, byteToHex_length, ih]
    ring

theorem hexDigitChar_isHex : ∀ n, n < 16 → isHexChar (hexDigitChar n) = true := by
  decide

theorem byteToHex_isHex (b : Nat) : isHexString (byteToHex b) = true := by
  have h1 := hexDigitChar_isHex (b / 16 % 16) (Nat.mod_lt _ (by norm_num))
  have h2 := hexDigitChar_isHex (b % 16) (Nat.mod_lt _ (by norm_num))
  simp only [byteToHex, isHexString]
  simp [h1, h2]

theorem isHexString_append (s t : String) :
    isHexString (s ++ t) = (isHexString s && isHexString t) := by
  simp [isHexString, String.data_append]

theorem bytesToHex_isHex (l : List Nat) : isHexString (bytesToHex l) = true := by
  induction l with
  | nil => rfl
  | cons b bs ih =>
    simp [bytesToHex, isHexString_append, byteToHex_isHex, ih]

/-- Claim C6: for every account, message and 16-byte random salt,
`signMessage` returns a record whose salt is the 32-hex-character encoding
of the random bytes, whose public key is the account's public key, and
whose `messageHex` is the fixed prefix `010001f0`, then the varint length
of the hex encoding of salt-concatenated-with-message, then that hex
encoding, then the suffix `0000`. -/
theorem C6_signMessage_envelope (account : Account) (message : String)
    (saltBytes : List Nat) (hlen : saltBytes.length = 16) :
    (signMessage account message saltBytes).salt = bytesToHex saltBytes ∧
    (signMessage account message saltBytes).salt.length = 32 ∧
    isHexString (signMessage account message saltBytes).salt = true ∧
    (signMessage account message saltBytes).publicKey = account.publicKey ∧
    (signMessage account message saltBytes).messageHex =
      "010001f0" ++
        num2VarInt
          ((str2hexstring ((signMessage account message saltBytes).salt ++ message)).length / 2) ++
        str2hexstring ((signMessage account message saltBytes).salt ++ message) ++
        "0000" := by
  refine ⟨rfl, ?_, bytesToHex_isHex saltBytes, rfl, rfl⟩
  show (bytesToHex saltBytes).length = 32
  rw [bytesToHex_length, hlen]

/-- Witness for C6 at a concrete account, message and 16-byte salt. -/
theorem C6_signMessage_envelope_witness :
    (signMessage ⟨"02pk", "sk", "0xhash"⟩ "hello" (List.replicate 16 7)).salt =
      bytesToHex (List.replicate 16 7) ∧
    (signMessage ⟨"02pk", "sk", "0xhash"⟩ "hello" (List.replicate 16 7)).salt.length = 32 ∧
    isHexString (signMessage ⟨"02pk", "sk", "0xhash"⟩ "hello" (List.replicate 16 7)).salt = true ∧
    (signMessage ⟨"02pk", "sk", "0xhash"⟩ "hello" (List.replicate 16 7)).publicKey =
      Account.publicKey ⟨"02pk", "sk", "0xhash"⟩ ∧
    (signMessage ⟨"02pk", "sk", "0xhash"⟩ "hello" (List.replicate 16 7)).messageHex =
      "010001f0" ++
        num2VarInt
          ((str2hexstring
            ((signMessage ⟨"02pk", "sk", "0xhash"⟩ "hello" (List.replicate 16 7)).salt ++
              "hello")).length / 2) ++
        str2hexstring
          ((signMessage ⟨"02pk", "sk", "0xhash"⟩ "hello" (List.replicate 16 7)).salt ++
            "hello") ++
        "0000" :=
  C6_signMessage_envelope ⟨"02pk", "sk", "0xhash"⟩ "hello" (List.replicate 16 7) (by decide)

/-- Claim C7: `verifyMessage` applied to the exact output of `signMessage`
for an account whose public key is derived from its private key returns
true, and applied to the same output with the signature data replaced by
any different string returns false.  `verifyMessage` is a pure function of
its argument record (it reads no state). -/
theorem C7_sign_verify_roundtrip (account : Account) (message : String)
    (saltBytes : List Nat) (hkey : account.publicKey = pubOf account.privateKey) :
    verifyMessage (signMessage account message saltBytes) = true ∧
    ∀ data2 : String, data2 ≠ (signMessage account message saltBytes).data →
      verifyMessage { signMessage account message saltBytes with data := data2 } = false := by
  constructor
  · simp [verifyMessage, signMessage, walletVerify, walletSign, hkey]
  · intro data2 hne
    have : data2 ≠ walletSign
        ("010001f0" ++
          num2VarInt ((str2hexstring (bytesToHex saltBytes ++ message)).length / 2) ++
          str2hexstring (bytesToHex saltBytes ++ message) ++ "0000")
        account.privateKey := hne
    simp [verifyMessage, signMessage, walletVerify, walletSign, hkey] at this ⊢
    exact this

/-- Witness for C7 at a concrete well-formed account. -/
theorem C7_sign_verify_roundtrip_witness :
    verifyMessage (signMessage ⟨pubOf "sk", "sk", "0xhash"⟩ "hello" [1, 2]) = true ∧
    ∀ data2 : String, data2 ≠ (signMessage ⟨pubOf "sk", "sk", "0xhash"⟩ "hello" [1, 2]).data →
      verifyMessage
        { signMessage ⟨pubOf "sk", "sk", "0xhash"⟩ "hello" [1, 2] with data := data2 } = false :=
  C7_sign_verify_roundtrip ⟨pubOf "sk", "sk", "0xhash"⟩ "hello" [1, 2] rfl

/-- A JavaScript argument object as routed through `convertParams`.
`noValue` is an element whose `value` property is `undefined`; `scalar` is
an element with a non-array value (strings and numbers are both carried as
their printed form); `arrVal` is an element whose value is a JavaScript
array.  The `ty` component is the element's `type` property. -/
inductive JsArg where
  | noValue (ty : Option String)
  | scalar (ty : Option String) (v : String)
  | arrVal (ty : Option String) (vs : List JsArg)
deriving Repr

/-- A converted contract parameter: either the original element passed
through unchanged, a fixed-width hash160 parameter built by
`sc.ContractParam.hash160` from a scalar or array value, or a nested array
parameter built by `sc.ContractParam.array`. -/
inductive CParam where
  | passthrough (a : JsArg)
  | hash160S (v : String)
  | hash160A (vs : List JsArg)
  | arrayParam (ps : List CParam)
deriving Repr

mutual

/-- The element conversion inside `convertParams`'s `args.map`: pass the
element through when `a.value === undefined`, build a hash160 parameter for
`Address` or `ScriptHash` types, recurse for `Array`, otherwise pass the
element through.  In the `Array` branch the source spreads
`convertParams(a.value)`, which raises a JavaScript `TypeError` when the
value is not an array; that throw is modelled as `Except.error`. -/
def convertArg : JsArg → Except String CParam
  | .noValue ty => .ok (.passthrough (.noValue ty))
  | .scalar ty v =>
    if ty = some "Address" then .ok (.hash160S v)
    else if ty = some "ScriptHash" then .ok (.hash160S v)
    else if ty = some "Array" then .error "TypeError: a.value.map is not a function"
    else .ok (.passthrough (.scalar ty v))
  | .arrVal ty vs =>
    if ty = some "Address" then .ok (.hash160A vs)
    else if ty = some "ScriptHash" then .ok (.hash160A vs)
    else if ty = some "Array" then
      match convertParams vs with
      | .ok inner => .ok (.arrayParam inner)
      | .error e => .error e
    else .ok (.passthrough (.arrVal ty vs))

/-- `N3Helper.convertParams`: `args.map` over the element conversion, with
a thrown `TypeError` propagating out of the map. -/
def convertParams : List JsArg → Except String (List CParam)
  | [] => .ok []
  | a :: rest =>
    match convertArg a, convertParams rest with
    | .ok c, .ok cs => .ok (c :: cs)
    | .error e, _ => .error e
    | .ok _, .error e => .error e

end

mutual

/-- Arguments inside the spec's data model: every `Array`-typed element
that reaches the recursive branch carries an actual JavaScript array. -/
def wellFormedArg : JsArg → Bool
  | .noValue _ => true
  | .scalar ty _ => !(ty == some "Array")
  | .arrVal ty vs => !(ty == some "Array") || wellFormedArgs vs

/-- All elements of a list are well formed. -/
def wellFormedArgs : List JsArg → Bool
  | [] => true
  | a :: rest => wellFormedArg a && wellFormedArgs rest

end

theorem convertParams_length : ∀ {args : List JsArg} {res : List CParam},
    convertParams args = .ok res → res.length = args.length := by
  intro args
  induction args with
  | nil => intro res h; cases h; rfl
  | cons a rest ih =>
    intro res h
    unfold convertParams at h
    cases hc : convertArg a with
    | error e => rw [hc] at h; cases h
    | ok c =>
      cases hr : convertParams rest with
      | error e => rw [hc, hr] at h; cases h
      | ok cs =>
        rw [hc, hr] at h
        cases h
        simp [ih hr]

theorem convertParams_pointwise : ∀ {args : List JsArg} {res : List CParam},
    convertParams args = .ok res →
    ∀ i (h1 : i < args.length) (h2 : i < res.length),
      convertArg (args.get ⟨i, h1⟩) = .ok (res.get ⟨i, h2⟩) := by
  intro args
  induction args with
  | nil => intro res _ i h1; exact absurd h1 (by simp)
  | cons a rest ih =>
    intro res h i h1 h2
    unfold convertParams at h
    cases hc : convertArg a with
    | error e => rw [hc] at h; cases h
    | ok c =>
      cases hr : convertParams rest with
      | error e => rw [hc, hr] at h; cases h
      | ok cs =>
        rw [hc, hr] at h
        cases h
        cases i with
        | zero => exact hc
        | succ j => exact ih hr j (Nat.lt_of_succ_lt_succ h1) (Nat.lt_of_succ_lt_succ h2)

theorem convert_total_aux : ∀ n : Nat,
    (∀ a : JsArg, sizeOf a ≤ n → wellFormedArg a = true →
      ∃ c, convertArg a = .ok c) ∧
    (∀ l : List JsArg, sizeOf l ≤ n → wellFormedArgs l = true →
      ∃ cs, convertParams l = .ok cs) := by
  intro n
  induction n using Nat.strong_induction_on with
  | _ n ih =>
    constructor
    · intro a hsize hwf
      match a with
      | .noValue ty => exact ⟨_, rfl⟩
      | .scalar ty v =>
        unfold wellFormedArg at hwf
        unfold convertArg
        by_cases hA : ty = some "Address"
        · simp [hA]
        · by_cases hS : ty = some "ScriptHash"
          · simp [hA, hS]
          · have hArr : ¬ ty = some "Array" := by
              intro hc
              rw [hc] at hwf
              simp at hwf
            simp [hA, hS, hArr]
      | .arrVal ty vs =>
        unfold convertArg
        by_cases hA : ty = some "Address"
        · simp [hA]
        · by_cases hS : ty = some "ScriptHash"
          · simp [hA, hS]
          · by_cases hArr : ty = some "Array"
            · have hvs : wellFormedArgs vs = true := by
                unfold wellFormedArg at hwf
                rw [hArr] at hwf
                simpa using hwf
              have hlt : sizeOf vs < n := by
                have h1 : sizeOf vs < sizeOf (JsArg.arrVal ty vs) := by
                  simp [JsArg.arrVal.sizeOf_spec]
                omega
              obtain ⟨cs, hcs⟩ := (ih (sizeOf vs) hlt).2 vs le_rfl hvs
              simp [hA, hS, hArr, hcs]
            · simp [hA, hS, hArr]
    · intro l hsize hall
      match l with
      | [] => exact ⟨_, rfl⟩
      | a :: rest =>
        have hwa : wellFormedArg a = true := by
          unfold wellFormedArgs at hall
          exact (Bool.and_eq_true_iff.mp hall).1
        have hwr : wellFormedArgs rest = true := by
          unfold wellFormedArgs at hall
          exact (Bool.and_eq_true_iff.mp hall).2
        have hla : sizeOf a < n := by
          have : sizeOf a < sizeOf (a :: rest) := by
            simp [List.cons.sizeOf_spec]
            omega
          omega
        have hlr : sizeOf rest < n := by
          have : sizeOf rest < sizeOf (a :: rest) := by
            simp [List.cons.sizeOf_spec]
          omega
        obtain ⟨c, hc⟩ := (ih (sizeOf a) hla).1 a le_rfl hwa
        obtain ⟨cs, hcs⟩ := (ih (sizeOf rest) hlr).2 rest le_rfl hwr
        exact ⟨c :: cs, by unfold convertParams; rw [hc, hcs]⟩

theorem convertParams_total (args : List JsArg) (h : wellFormedArgs args = true) :
    ∃ res, convertParams args = .ok res :=
  (convert_total_aux (sizeOf args)).2 args le_rfl h

/-- Counterexample to claim C3 as stated: `convertParams` is not total over
all argument lists.  On the single-element list whose element is typed
`Array` but carries the scalar value `"foo"`, the source spreads
`convertParams(a.value)` over a non-array, which raises a `TypeError`
instead of returning a converted list. -/
theorem C3_counterexample :
    convertParams [JsArg.scalar (some "Array") "foo"] =
      .error "TypeError: a.value.map is not a function" := by
  rfl

/-- Claim C3 (amended): for every argument list in the data model — every
element typed `Array` carries an actual array, recursively — `convertParams`
never throws, returns a list of the same length with elements converted in
order, passes through unchanged any element without an explicit value
marker, converts `Address` and `ScriptHash` typed elements to a hash160
parameter, and converts `Array` typed elements recursively to a nested
array parameter without flattening. -/
theorem C3_convertParams_total_order_preserving (args : List JsArg)
    (h : wellFormedArgs args = true) :
    ∃ res, convertParams args = .ok res ∧
      res.length = args.length ∧
      (∀ i (h1 : i < args.length) (h2 : i < res.length),
        convertArg (args.get ⟨i, h1⟩) = .ok (res.get ⟨i, h2⟩)) ∧
      (∀ ty, convertArg (.noValue ty) = .ok (.passthrough (.noValue ty))) ∧
      (∀ v, convertArg (.scalar (some "Address") v) = .ok (.hash160S v)) ∧
      (∀ v, convertArg (.scalar (some "ScriptHash") v) = .ok (.hash160S v)) ∧
      (∀ vs, wellFormedArgs vs = true →
        ∃ inner, convertParams vs = .ok inner ∧
          convertArg (.arrVal (some "Array") vs) = .ok (.arrayParam inner)) := by
  obtain ⟨res, hres⟩ := convertParams_total args h
  refine ⟨res, hres, convertParams_length hres, convertParams_pointwise hres,
    fun ty => rfl, fun v => by simp [convertArg], fun v => by simp [convertArg], ?_⟩
  intro vs hvs
  obtain ⟨inner, hinner⟩ := convertParams_total vs hvs
  exact ⟨inner, hinner, by simp [convertArg, hinner]⟩

/-- Witness for the amended C3 at a concrete argument list exercising the
passthrough, `Address`, `ScriptHash` and nested `Array` branches. -/
theorem C3_convertParams_witness :
    ∃ res,
      convertParams
        [JsArg.noValue (some "Integer"),
         JsArg.scalar (some "Address") "NPickColns",
         JsArg.scalar (some "ScriptHash") "0xabcd",
         JsArg.arrVal (some "Array") [JsArg.scalar (some "Address") "NAddr2"],
         JsArg.scalar (some "Integer") "5"] = .ok res ∧
      res.length =
        [JsArg.noValue (some "Integer"),
         JsArg.scalar (some "Address") "NPickColns",
         JsArg.scalar (some "ScriptHash") "0xabcd",
         JsArg.arrVal (some "Array") [JsArg.scalar (some "Address") "NAddr2"],
         JsArg.scalar (some "Integer") "5"].length ∧
      (∀ i (h1 : i <
          [JsArg.noValue (some "Integer"),
           JsArg.scalar (some "Address") "NPickColns",
           JsArg.scalar (some "ScriptHash") "0xabcd",
           JsArg.arrVal (some "Array") [JsArg.scalar (some "Address") "NAddr2"],
           JsArg.scalar (some "Integer") "5"].length) (h2 : i < res.length),
        convertArg
          ([JsArg.noValue (some "Integer"),
            JsArg.scalar (some "Address") "NPickColns",
            JsArg.scalar (some "ScriptHash") "0xabcd",
            JsArg.arrVal (some "Array") [JsArg.scalar (some "Address") "NAddr2"],
            JsArg.scalar (some "Integer") "5"].get ⟨i, h1⟩) = .ok (res.get ⟨i, h2⟩)) ∧
      (∀ ty, convertArg (.noValue ty) = .ok (.passthrough (.noValue ty))) ∧
      (∀ v, convertArg (.scalar (some "Address") v) = .ok (.hash160S v)) ∧
      (∀ v, convertArg (.scalar (some "ScriptHash") v) = .ok (.hash160S v)) ∧
      (∀ vs, wellFormedArgs vs = true →
        ∃ inner, convertParams vs = .ok inner ∧
          convertArg (.arrVal (some "Array") vs) = .ok (.arrayParam inner)) :=
  C3_convertParams_total_order_preserving
    [JsArg.noValue (some "Integer"),
     JsArg.scalar (some "Address") "NPickColns",
     JsArg.scalar (some "ScriptHash") "0xabcd",
     JsArg.arrVal (some "Array") [JsArg.scalar (some "Address") "NAddr2"],
     JsArg.scalar (some "Integer") "5"] rfl

/-- The `CalledByEntry` witness scope constant from the `WitnessScope` type
at the top of helpers.js. -/
def WitnessScopeCalledByEntry : Nat := 1

/-- A signer entry supplied inside a request batch (the `Signer` Flow type
in helpers.js): a required scopes value plus optional allow-lists. -/
structure SignerEntry where
  scopes : Nat
  allowedContracts : Option (List String)
  allowedGroups : Option (List String)
deriving Repr, DecidableEq

/-- The observable fields of a built `tx.Signer`.  `scopes` is an
`Option` because `buildSigner` assigns the JavaScript expression
`signerEntry && signerEntry.scopes`, which is `undefined` — modelled as
`none` — when no entry is supplied.  `allowedContracts` and
`allowedGroups` are `none` when left at the library constructor default. -/
structure TxSigner where
  account : String
  scopes : Option Nat
  allowedContracts : Option (List String)
  allowedGroups : Option (List String)
deriving Repr, DecidableEq

/-- `Neon.u.HexString.fromHex` at the boundary: identity on the hex
content for this model. -/
def hexStringFromHex (s : String) : String := s

/-- `N3Helper.buildSigner`: constructs a `tx.Signer` for the account's
script hash, then overwrites its scopes with
`signerEntry && signerEntry.scopes` and maps the optional allow-lists
through `HexString.fromHex`. -/
def buildSigner (account : Account) (signerEntry : Option SignerEntry) : TxSigner :=
  { account := account.scriptHash
    scopes := signerEntry.map (fun se => se.scopes)
    allowedContracts :=
      match signerEntry with
      | some se => se.allowedContracts.map (fun l => l.map hexStringFromHex)
      | none => none
    allowedGroups :=
      match signerEntry with
      | some se => se.allowedGroups.map (fun l => l.map hexStringFromHex)
      | none => none }

/-- `N3Helper.buildMultipleSigner` (the `signers` parameter defaults to the
empty list when absent): a single default signer when the list is empty,
otherwise one built signer per entry. -/
def buildMultipleSigner (account : Account) (signers : List SignerEntry) : List TxSigner :=
  if signers.length = 0 then [buildSigner account none]
  else signers.map (fun s => buildSigner account (some s))

/-- Counterexample to claim C2 as stated: for an empty signer list the
single default signer's witness scope is not `CalledByEntry`; the source
assigns `signerEntry && signerEntry.scopes`, which leaves the scopes field
`undefined` (modelled as `none`). -/
theorem C2_counterexample :
    (buildMultipleSigner ⟨"02aa", "kk", "0xabc"⟩ []).map TxSigner.scopes = [none] ∧
    ([none] : List (Option Nat)) ≠ [some WitnessScopeCalledByEntry] := by
  constructor
  · rfl
  · simp [WitnessScopeCalledByEntry]

/-- Claim C2 (amended): for every invoke or test-invoke batch whose signer
list is empty or absent, the signer set used for script assembly is exactly
one signer for the invoking account's script hash, but its witness-scope
field is assigned `undefined` (no scope value, rather than `CalledByEntry`)
and its allow-lists are left at the library default. -/
theorem C2_default_signer (account : Account) :
    buildMultipleSigner account [] =
      [{ account := account.scriptHash, scopes := none,
         allowedContracts := none, allowedGroups := none }] ∧
    (buildMultipleSigner account []).length = 1 ∧
    (buildSigner account none).scopes = none := by
  refine ⟨?_, rfl, rfl⟩
  simp [buildMultipleSigner, buildSigner]

/-- A `ContractInvocation` from the request payload. -/
structure ContractInvocation where
  scriptHash : String
  operation : String
  args : List JsArg
  abortOnFail : Bool
deriving Repr

/-- A `ContractInvocationMulti` batch: signers plus ordered invocations. -/
structure ContractInvocationMulti where
  signers : List SignerEntry
  invocations : List ContractInvocation
deriving Repr

/-- One item emitted into the neon-js script builder. -/
inductive ScriptItem where
  | contractCall (scriptHash operation : String) (args : List CParam)
  | opcode (b : Nat)
deriving Repr

/-- The `cim.invocations.forEach` loop over `sb.emitContractCall` and the
conditional `sb.emit(0x39)` for `abortOnFail`, with a conversion
`TypeError` propagating out of the loop. -/
def buildScript : List ContractInvocation → Except String (List ScriptItem)
  | [] => .ok []
  | c :: rest =>
    match convertParams c.args, buildScript rest with
    | .ok ps, .ok items =>
      .ok ([ScriptItem.contractCall c.scriptHash c.operation ps] ++
        (if c.abortOnFail then [ScriptItem.opcode 0x39] else []) ++ items)
    | .error e, _ => .error e
    | .ok _, .error e => .error e

/-- The witness attached to the transaction before fee estimation. -/
structure TxWitness where
  verificationScript : String
  invocationScript : String
deriving Repr, DecidableEq

/-- External `wallet.getVerificationScriptFromPublicKey`, at the boundary. -/
def getVerificationScriptFromPublicKey (publicKey : String) : String :=
  "verif:" ++ publicKey

/-- The constructed `tx.Transaction`.  `signedBy` records a local
`trx.sign(account, networkMagic)` call; `hwSigned` marks a transaction
returned by the hardware-signing facade. -/
structure Transaction where
  script : List ScriptItem
  validUntilBlock : Nat
  signers : List TxSigner
  witnesses : List TxWitness
  networkFee : Nat
  systemFee : Nat
  signedBy : Option (String × Nat)
  hwSigned : Bool
deriving Repr

/-- External `trx.sign(account, networkMagic)` at the boundary: records the
signing key and magic on the transaction. -/
def txSign (t : Transaction) (account : Account) (networkMagic : Nat) : Transaction :=
  { t with signedBy := some (account.privateKey, networkMagic) }

/-- The external collaborators `multiInvoke` awaits, as fallible oracles:
network-magic lookup, block-height lookup, fee augmentation, the
hardware-signing facade, and broadcast submission.  `sendRawTransaction`
receives `none` when the transaction variable holds `undefined`. -/
structure InvokeEnv where
  getMagic : Except String Nat
  getBlockCount : Except String Nat
  addFees : Transaction → Except String Transaction
  hwSign : Transaction → Except String Transaction
  sendRawTransaction : Option Transaction → String

/-- The outcome of `multiInvoke`: what was handed to
`sendRawTransaction`, the broadcast response, and whether a
hardware-signing failure was caught and logged. -/
structure MultiInvokeResult where
  sent : Option Transaction
  response : String
  signErrorLogged : Bool
deriving Repr

/-- `N3Helper.multiInvoke`: build the script, look up network magic and
height, assemble the transaction with a 100-block validity horizon and a
placeholder witness, add fees, then either hand the transaction to the
hardware-signing facade — whose failure is swallowed by
`.catch(console.error)`, leaving the transaction variable `undefined` — or
sign locally, and in every case submit the result for broadcast. -/
def multiInvoke (account : Account) (cim : ContractInvocationMulti)
    (isHardwareLogin : Bool) (env : InvokeEnv) : Except String MultiInvokeResult := do
  let networkMagic ← env.getMagic
  let script ← buildScript cim.invocations
  let currentHeight ← env.getBlockCount
  let trx0 : Transaction :=
    { script := script
      validUntilBlock := currentHeight + 100
      signers := buildMultipleSigner account cim.signers
      witnesses :=
        [{ verificationScript := getVerificationScriptFromPublicKey account.publicKey
           invocationScript := "" }]
      networkFee := 0
      systemFee := 0
      signedBy := none
      hwSigned := false }
  let trx1 ← env.addFees trx0
  let signed : Option Transaction × Bool :=
    if isHardwareLogin then
      match env.hwSign trx1 with
      | .ok t => (some t, false)
      | .error _ => (none, true)
    else (some (txSign trx1 account networkMagic), false)
  return { sent := signed.1
           response := env.sendRawTransaction signed.1
           signErrorLogged := signed.2 }

/-- `N3Helper.multiTestInvoke`: same script and signer assembly, handed to
the simulate-only `invokeScript` RPC entry point (an oracle here); no
transaction is constructed or broadcast. -/
def multiTestInvoke (account : Account) (cim : ContractInvocationMulti)
    (invokeScriptRpc : List ScriptItem → List TxSigner → String) :
    Except String String := do
  let script ← buildScript cim.invocations
  return invokeScriptRpc script (buildMultipleSigner account cim.signers)

/-- Claim C9: for every hardware-backed invoke call whose chain lookups and
fee augmentation succeed, a failure of the external signing callback does
not abort or throw out of the call chain: `multiInvoke` still returns
normally, the failure is logged at the signing step, and broadcast
submission is attempted with the `undefined` transaction state produced by
the failed signing. -/
theorem C9_hw_sign_failure_not_fatal (account : Account)
    (cim : ContractInvocationMulti) (env : InvokeEnv) (m h : Nat) (e : String)
    (items : List ScriptItem) (fees : Transaction → Transaction)
    (hm : env.getMagic = .ok m) (hh : env.getBlockCount = .ok h)
    (hscript : buildScript cim.invocations = .ok items)
    (hfees : ∀ t, env.addFees t = .ok (fees t))
    (hhw : ∀ t, env.hwSign t = .error e) :
    multiInvoke account cim true env =
      .ok { sent := none
            response := env.sendRawTransaction none
            signErrorLogged := true } := by
  simp [multiInvoke, hm, hh, hscript, hfees, hhw, bind, Except.bind, pure, Except.pure]

/-- Witness for C9 at a concrete environment whose hardware signing always
fails. -/
theorem C9_hw_sign_failure_not_fatal_witness :
    multiInvoke ⟨"02pk", "sk", "0xabc"⟩ ⟨[], []⟩ true
      { getMagic := .ok 860833102
        getBlockCount := .ok 1000
        addFees := fun t => .ok t
        hwSign := fun _ => .error "hw device failure"
        sendRawTransaction := fun o => if o.isSome then "txid" else "broadcast of undefined" } =
      .ok { sent := none
            response :=
              (fun o : Option Transaction =>
                if o.isSome then "txid" else "broadcast of undefined") none
            signErrorLogged := true } :=
  C9_hw_sign_failure_not_fatal ⟨"02pk", "sk", "0xabc"⟩ ⟨[], []⟩
    { getMagic := .ok 860833102
      getBlockCount := .ok 1000
      addFees := fun t => .ok t
      hwSign := fun _ => .error "hw device failure"
      sendRawTransaction := fun o => if o.isSome then "txid" else "broadcast of undefined" }
    860833102 1000 "hw device failure" [] (fun t => t) rfl rfl rfl (fun _ => rfl) (fun _ => rfl)

end N3Helper

namespace WalletConnectContext

/-- A JSON-RPC request.  Its value stands for the canonical serialized form
`JSON.stringify(request)` used as the durable approval-cache key. -/
structure Req where
  id : Nat
  method : String
  params : List String
deriving Repr, DecidableEq

/-- A `SessionTypes.RequestEvent`: the session topic plus the request. -/
structure RequestEvent where
  topic : String
  request : Req
deriving Repr, DecidableEq

/-- An active session, identified by its topic. -/
structure Session where
  topic : String
deriving Repr, DecidableEq

/-- A session proposal: the requested chain identifiers (from
`proposal.permissions.blockchain.chains`) and the requested JSON-RPC
methods (from `proposal.permissions.jsonrpc.methods`). -/
structure Proposal where
  chains : List String
  methods : List String
deriving Repr, DecidableEq

/-- A JSON-RPC response sent back on the session transport: either a
normal result envelope from `rpcCall` or a structured error built by
`formatJsonRpcError`. -/
inductive JResponse where
  | ok (id : Nat) (result : String) (isMessage : Bool)
  | rpcError (id : Nat) (message : String)
deriving Repr, DecidableEq

/-- `formatJsonRpcError` from the json-rpc-tools utils boundary. -/
def formatJsonRpcError (id : Nat) (message : String) : JResponse :=
  .rpcError id message

/-- The WalletConnect client's own persisted session store
(`wcClient.session.values`). -/
structure WCClient where
  sessionValues : List Session
deriving Repr, DecidableEq

/-- The provider state of the WalletConnect context: the React state cells
plus, for the embedding, the ordered log of transport responses
(`wcClient.respond` calls) and the durable approval cache (the
`storage.setItem` entries keyed by serialized request). -/
structure WCState where
  wcClient : Option WCClient
  sessionProposals : List Proposal
  initialized : Bool
  chains : List String
  accounts : List String
  sessions : List Session
  requests : List RequestEvent
  results : List String
  responses : List (String × JResponse)
  approvalCache : List Req
deriving Repr, DecidableEq

/-- `removeFromPending`: drop every queued event with the resolved
request's id. -/
def removeFromPending (requests : List RequestEvent) (requestEvent : RequestEvent) :
    List RequestEvent :=
  requests.filter (fun x => x.request.id != requestEvent.request.id)

/-- `askApproval` inside the session.request handler: replace any queued
entry with the same request id, then append the new event. -/
def askApproval (s : WCState) (requestEvent : RequestEvent) : WCState :=
  { s with requests :=
      s.requests.filter (fun i => i.request.id != requestEvent.request.id) ++
        [requestEvent] }

/-- `checkApprovedRequest`: look the request's canonical serialized form up
in the durable approval cache. -/
def checkApprovedRequest (s : WCState) (request : Req) : Bool :=
  s.approvalCache.contains request

/-- The `storage.setItem` half of `approveAndMakeRequest`: record the
request's canonical serialized form in the durable approval cache. -/
def recordApproval (s : WCState) (request : Req) : WCState :=
  { s with approvalCache := s.approvalCache ++ [request] }

/-- A `wcClient.respond` call: the transport send of one response on one
topic, recorded in order. -/
def respond (s : WCState) (topic : String) (response : JResponse) : WCState :=
  { s with responses := s.responses ++ [(topic, response)] }

/-- `approveRequest` (manual approval).  `fulfill` is the outcome of
`makeRequest` — the Signing Facade call — with `Except.error` modelling a
thrown error.  The body mirrors the source: `approveAndMakeRequest`
records the approval-cache entry and invokes the facade; on success the
result is sent on the event's topic, on a caught error a structured
`Failed or Rejected Request` response is sent instead; afterwards the
request is removed from the pending collection.  The only outward throw is
the client-not-initialized guard before the `try`. -/
def approveRequest (fulfill : Except String JResponse) (s : WCState)
    (requestEvent : RequestEvent) : Except String WCState :=
  match s.wcClient with
  | none => .error "Client is not initialized"
  | some _ =>
    let s1 := recordApproval s requestEvent.request
    let s2 :=
      match fulfill with
      | .ok response => respond s1 requestEvent.topic response
      | .error _ =>
        respond s1 requestEvent.topic
          (formatJsonRpcError requestEvent.request.id "Failed or Rejected Request")
    .ok { s2 with requests := removeFromPending s2.requests requestEvent }

/-- `rejectRequest` (manual rejection): send the structured
`Failed or Rejected Request` error on the event's topic, then remove the
request from the pending collection. -/
def rejectRequest (s : WCState) (requestEvent : RequestEvent) : Except String WCState :=
  match s.wcClient with
  | none => .error "Client is not initialized"
  | some _ =>
    let s1 := respond s requestEvent.topic
      (formatJsonRpcError requestEvent.request.id "Failed or Rejected Request")
    .ok { s1 with requests := removeFromPending s1.requests requestEvent }

/-- The address and chain id handed to the auto-accept callback, parsed
from the first account string `namespace:reference:address`; both are
`undefined` — modelled `none` — when no account is known. -/
def firstAccountInfo (accounts : List String) : Option String × Option String :=
  match accounts with
  | [] => (none, none)
  | a :: _ =>
    let parts := a.splitOn ":"
    (parts.get? 2, some (parts.getD 0 "" ++ ":" ++ parts.getD 1 "undefined"))

/-- The outcome of the session.request handler, with flags recording
whether the Signing Facade (`makeRequest`) and the auto-accept callback
were invoked. -/
structure HandlerResult where
  state : WCState
  facadeInvoked : Bool
  callbackInvoked : Bool
deriving Repr

/-- The `CLIENT_EVENTS.session.request` handler in `subscribeToEvents`:
consult the durable approval cache first and approve on a hit; otherwise
consult the auto-accept callback when registered, approving on a truthy
result and queueing for manual approval on a falsy one; with no callback,
always queue.  A throw inside the `try` — here, a failing facade call on
an approve path — is caught and answered with a structured error carrying
the thrown message. -/
def onSessionRequest (fulfill : Except String JResponse)
    (autoAcceptCallback : Option (Option String → Option String → Req → Bool))
    (s : WCState) (requestEvent : RequestEvent) : HandlerResult :=
  let approve : WCState → WCState := fun st =>
    match fulfill with
    | .ok response => respond st requestEvent.topic response
    | .error e =>
      respond st requestEvent.topic (formatJsonRpcError requestEvent.request.id e)
  if checkApprovedRequest s requestEvent.request then
    { state := approve s, facadeInvoked := true, callbackInvoked := false }
  else
    match autoAcceptCallback with
    | some cb =>
      let info := firstAccountInfo s.accounts
      if cb info.1 info.2 requestEvent.request then
        { state := approve s, facadeInvoked := true, callbackInvoked := true }
      else
        { state := askApproval s requestEvent, facadeInvoked := false,
          callbackInvoked := true }
    | none =>
      { state := askApproval s requestEvent, facadeInvoked := false,
        callbackInvoked := false }

/-- The decision taken by the session.proposal handler: decline via
`wcClient.reject` or track in the pending-proposal collection. -/
inductive ProposalOutcome where
  | rejected
  | tracked
deriving Repr, DecidableEq

/-- The `CLIENT_EVENTS.session.proposal` handler in `subscribeToEvents`:
reject when any requested chain is absent from the configured chain list,
then reject when any requested method is absent from the configured method
list, otherwise append the proposal to the pending-proposal collection.
The `supportedNamespaces` array the source also computes is dead code and
is not modelled.  `methods` is `options.methods`. -/
def onSessionProposal (methods : List String) (s : WCState) (proposal : Proposal) :
    Except String (ProposalOutcome × WCState) :=
  match s.wcClient with
  | none => .error "Client is not initialized"
  | some _ =>
    let unsupportedChains :=
      proposal.chains.filter (fun chainId => !(s.chains.contains chainId))
    if unsupportedChains.length ≠ 0 then .ok (.rejected, s)
    else
      let unsupportedMethods :=
        proposal.methods.filter (fun m => !(methods.contains m))
      if unsupportedMethods.length ≠ 0 then .ok (.rejected, s)
      else .ok (.tracked, { s with sessionProposals := s.sessionProposals ++ [proposal] })

/-- The client-store sessions `resetApp` disconnects in its second block
(`wcClient.session.values`, empty when the client is undefined). -/
def clientSessionValues (s : WCState) : List Session :=
  match s.wcClient with
  | some c => c.sessionValues
  | none => []

/-- The state after `resetApp`'s clearing tail: client dropped and every
local collection emptied.  The transport log and the durable approval
cache are not React state and are untouched. -/
def clearedState (s : WCState) : WCState :=
  { s with wcClient := none, sessionProposals := [], initialized := false,
           accounts := [], sessions := [], requests := [], results := [] }

/-- The rejected disconnects of one `Promise.all` block: each session is
disconnected only when the client is defined (the source maps
`wcClient && wcClient.disconnect(...)`, a falsy no-op otherwise). -/
def disconnectFailures (disconnectFails : String → Bool) (client : Option WCClient)
    (sessions : List Session) : List Session :=
  match client with
  | some _ => sessions.filter (fun sess => disconnectFails sess.topic)
  | none => []

/-- `resetApp`.  `disconnectFails` is the oracle for which
`wcClient.disconnect` calls reject.  The whole body runs in a
`try`/`catch`: a rejected disconnect in either `Promise.all` block — first
over the local `sessions` list, then over the client store
`wcClient.session.values` — is caught and logged (the returned flag) and
the clearing tail never runs; otherwise every local collection is
cleared. -/
def resetApp (disconnectFails : String → Bool) (s : WCState) : WCState × Bool :=
  if (disconnectFailures disconnectFails s.wcClient s.sessions).length ≠ 0 then (s, true)
  else if (disconnectFailures disconnectFails s.wcClient
      (clientSessionValues s)).length ≠ 0 then (s, true)
  else (clearedState s, false)

theorem disconnectFailures_nil (disconnectFails : String → Bool)
    (client : Option WCClient) :
    disconnectFailures disconnectFails client [] = [] := by
  cases client <;> rfl

theorem disconnectFailures_none (disconnectFails : String → Bool)
    (sessions : List Session) :
    disconnectFailures disconnectFails none sessions = [] := rfl

theorem countP_removeFromPending (l : List RequestEvent) (ev : RequestEvent) :
    (removeFromPending l ev).countP (fun x => x.request.id == ev.request.id) = 0 := by
  rw [List.countP_eq_zero]
  intro a ha
  rw [removeFromPending, List.mem_filter] at ha
  simp only [bne_iff_ne, ne_eq] at ha
  simp [ha.2]

theorem countP_filter_le {α : Type} (l : List α) (p q : α → Bool) :
    (l.filter q).countP p ≤ l.countP p := by
  induction l with
  | nil => simp
  | cons a t ih =>
    rw [List.filter_cons]
    by_cases hq : q a = true
    · rw [if_pos hq, List.countP_cons, List.countP_cons]
      omega
    · rw [if_neg hq, List.countP_cons]
      omega

theorem contains_append_self (l : List Req) (r : Req) :
    (l ++ [r]).contains r = true := by
  induction l with
  | nil => simp
  | cons a t ih => simp [ih]

theorem filter_not_length_eq_zero {α : Type} (l : List α) (q : α → Bool) :
    ((l.filter (fun x => !(q x))).length = 0) ↔ l.all q = true := by
  simp [List.length_eq_zero, List.filter_eq_nil_iff, List.all_eq_true]

/-- Claim C1: for every pending request resolved by manual approval or
manual rejection with an initialized client, exactly one terminal response
is sent on the event's topic — the approve result on success, the
structured `Failed or Rejected Request` error otherwise — and every queued
entry with the request's id is removed, even when the underlying request
fulfillment throws: no duplicate responses and no entry left pending. -/
theorem C1_manual_resolution_exactly_once (fulfill : Except String JResponse)
    (s : WCState) (ev : RequestEvent) (hclient : s.wcClient ≠ none) :
    (∃ r, approveRequest fulfill s ev = .ok r ∧
      r.responses = s.responses ++
        [(ev.topic,
          match fulfill with
          | .ok response => response
          | .error _ => formatJsonRpcError ev.request.id "Failed or Rejected Request")] ∧
      r.responses.length = s.responses.length + 1 ∧
      r.requests = removeFromPending s.requests ev ∧
      r.requests.countP (fun x => x.request.id == ev.request.id) = 0) ∧
    (∃ r, rejectRequest s ev = .ok r ∧
      r.responses = s.responses ++
        [(ev.topic, formatJsonRpcError ev.request.id "Failed or Rejected Request")] ∧
      r.responses.length = s.responses.length + 1 ∧
      r.requests = removeFromPending s.requests ev ∧
      r.requests.countP (fun x => x.request.id == ev.request.id) = 0) := by
  constructor
  · cases hw : s.wcClient with
    | none => exact absurd hw hclient
    | some c =>
      cases fulfill with
      | ok response =>
        refine ⟨{ s with
            approvalCache := s.approvalCache ++ [ev.request]
            responses := s.responses ++ [(ev.topic, response)]
            requests := removeFromPending s.requests ev }, ?_, rfl, by simp, rfl,
          countP_removeFromPending s.requests ev⟩
        simp [approveRequest, hw, recordApproval, respond]
      | error err =>
        refine ⟨{ s with
            approvalCache := s.approvalCache ++ [ev.request]
            responses := s.responses ++
              [(ev.topic, formatJsonRpcError ev.request.id "Failed or Rejected Request")]
            requests := removeFromPending s.requests ev }, ?_, rfl, by simp, rfl,
          countP_removeFromPending s.requests ev⟩
        simp [approveRequest, hw, recordApproval, respond]
  · cases hw : s.wcClient with
    | none => exact absurd hw hclient
    | some c =>
      refine ⟨{ s with
          responses := s.responses ++
            [(ev.topic, formatJsonRpcError ev.request.id "Failed or Rejected Request")]
          requests := removeFromPending s.requests ev }, ?_, rfl, by simp, rfl,
        countP_removeFromPending s.requests ev⟩
      simp [rejectRequest, hw, respond]

/-- Claim C10: whenever a request event is enqueued for manual approval,
any already-queued entry with the same request id is removed before the
new entry is appended, so the queue holds exactly one entry with the new
id and an at-most-one-per-id queue stays at-most-one-per-id. -/
theorem C10_askApproval_at_most_one_per_id (s : WCState) (ev : RequestEvent) :
    (askApproval s ev).requests =
      s.requests.filter (fun i => i.request.id != ev.request.id) ++ [ev] ∧
    (askApproval s ev).requests.countP (fun i => i.request.id == ev.request.id) = 1 ∧
    ∀ n : Nat, s.requests.countP (fun i => i.request.id == n) ≤ 1 →
      (askApproval s ev).requests.countP (fun i => i.request.id == n) ≤ 1 := by
  refine ⟨rfl, ?_, ?_⟩
  · show (removeFromPending s.requests ev ++ [ev]).countP
      (fun i => i.request.id == ev.request.id) = 1
    rw [List.countP_append, countP_removeFromPending]
    simp [List.countP_cons]
  · intro n hn
    show (removeFromPending s.requests ev ++ [ev]).countP
      (fun i => i.request.id == n) ≤ 1
    rw [List.countP_append]
    by_cases hid : ev.request.id = n
    · subst hid
      rw [countP_removeFromPending]
      simp [List.countP_cons]
    · have h1 : (removeFromPending s.requests ev).countP
          (fun i => i.request.id == n) ≤ 1 :=
        le_trans (countP_filter_le s.requests _ _) hn
      have h2 : ([ev] : List RequestEvent).countP (fun i => i.request.id == n) = 0 := by
        simp [List.countP_cons, hid]
      omega

/-- Claim C5: for every inbound session request whose canonical serialized
form is present in the durable approval cache, the handler approves and
fulfills the request via the Signing Facade immediately — without invoking
the auto-accept callback and without touching the manual-approval queue —
sending exactly one response on the event's topic; and a manual approval
records such a cache entry, so a later identical request takes this path. -/
theorem C5_cache_hit_bypasses (fulfill : Except String JResponse)
    (autoAcceptCallback : Option (Option String → Option String → Req → Bool))
    (s : WCState) (ev : RequestEvent) (hclient : s.wcClient ≠ none)
    (hcached : checkApprovedRequest s ev.request = true) :
    (onSessionRequest fulfill autoAcceptCallback s ev).facadeInvoked = true ∧
    (onSessionRequest fulfill autoAcceptCallback s ev).callbackInvoked = false ∧
    (onSessionRequest fulfill autoAcceptCallback s ev).state.requests = s.requests ∧
    (onSessionRequest fulfill autoAcceptCallback s ev).state.responses =
      s.responses ++
        [(ev.topic,
          match fulfill with
          | .ok response => response
          | .error e => formatJsonRpcError ev.request.id e)] ∧
    (∃ r, approveRequest fulfill s ev = .ok r ∧
      checkApprovedRequest r ev.request = true) := by
  refine ⟨?_, ?_, ?_, ?_, ?_⟩
  · cases fulfill <;> simp [onSessionRequest, hcached]
  · cases fulfill <;> simp [onSessionRequest, hcached]
  · cases fulfill <;> simp [onSessionRequest, hcached, respond]
  · cases fulfill <;> simp [onSessionRequest, hcached, respond]
  · cases hw : s.wcClient with
    | none => exact absurd hw hclient
    | some c =>
      cases fulfill with
      | ok response =>
        refine ⟨{ s with
            approvalCache := s.approvalCache ++ [ev.request]
            responses := s.responses ++ [(ev.topic, response)]
            requests := removeFromPending s.requests ev }, ?_, ?_⟩
        · simp [approveRequest, hw, recordApproval, respond]
        · show (s.approvalCache ++ [ev.request]).contains ev.request = true
          exact contains_append_self _ _
      | error err =>
        refine ⟨{ s with
            approvalCache := s.approvalCache ++ [ev.request]
            responses := s.responses ++
              [(ev.topic, formatJsonRpcError ev.request.id "Failed or Rejected Request")]
            requests := removeFromPending s.requests ev }, ?_, ?_⟩
        · simp [approveRequest, hw, recordApproval, respond]
        · show (s.approvalCache ++ [ev.request]).contains ev.request = true
          exact contains_append_self _ _

/-- Claim C4: for every received session proposal with an initialized
client, the handler produces exactly one of decline or accept-track: it
rejects without touching the pending-proposal collection when any
requested chain is absent from the configured chain list or any requested
method is absent from the configured method list, and otherwise appends
the proposal to the pending-proposal collection. -/
theorem onSessionProposal_eq (methods : List String) (s : WCState) (p : Proposal)
    (c : WCClient) (hw : s.wcClient = some c) :
    onSessionProposal methods s p =
      if (p.chains.filter (fun chainId => !(s.chains.contains chainId))).length ≠ 0 then
        .ok (.rejected, s)
      else if (p.methods.filter (fun m => !(methods.contains m))).length ≠ 0 then
        .ok (.rejected, s)
      else .ok (.tracked, { s with sessionProposals := s.sessionProposals ++ [p] }) := by
  unfold onSessionProposal
  rw [hw]

theorem C4_proposal_policy (methods : List String) (s : WCState) (p : Proposal)
    (hclient : s.wcClient ≠ none) :
    ∃ out s2, onSessionProposal methods s p = .ok (out, s2) ∧
      (out = .rejected ∨ out = .tracked) ∧
      ((p.chains.all (fun ch => s.chains.contains ch) &&
        p.methods.all (fun m => methods.contains m)) = false →
        out = .rejected ∧ s2 = s) ∧
      ((p.chains.all (fun ch => s.chains.contains ch) &&
        p.methods.all (fun m => methods.contains m)) = true →
        out = .tracked ∧
        s2 = { s with sessionProposals := s.sessionProposals ++ [p] }) := by
  rcases Option.ne_none_iff_exists'.mp hclient with ⟨c, hw⟩
  rw [onSessionProposal_eq methods s p c hw]
  by_cases hc : p.chains.all (fun ch => s.chains.contains ch) = true
  · have h1 : (p.chains.filter (fun chainId => !(s.chains.contains chainId))).length = 0 :=
      (filter_not_length_eq_zero _ _).mpr hc
    rw [if_neg (fun hcon => hcon h1)]
    by_cases hm : p.methods.all (fun m => methods.contains m) = true
    · have h2 : (p.methods.filter (fun m => !(methods.contains m))).length = 0 :=
        (filter_not_length_eq_zero _ _).mpr hm
      rw [if_neg (fun hcon => hcon h2)]
      refine ⟨.tracked, { s with sessionProposals := s.sessionProposals ++ [p] },
        rfl, .inr rfl, ?_, fun _ => ⟨rfl, rfl⟩⟩
      intro hfalse
      rw [hc, hm] at hfalse
      simp at hfalse
    · have h2 : (p.methods.filter (fun m => !(methods.contains m))).length ≠ 0 := by
        rw [Ne, filter_not_length_eq_zero]
        exact hm
      rw [if_pos h2]
      refine ⟨.rejected, s, rfl, .inl rfl, fun _ => ⟨rfl, rfl⟩, ?_⟩
      intro htrue
      rw [Bool.and_eq_true_iff] at htrue
      exact absurd htrue.2 hm
  · have h1 : (p.chains.filter (fun chainId => !(s.chains.contains chainId))).length ≠ 0 := by
      rw [Ne, filter_not_length_eq_zero]
      exact hc
    rw [if_pos h1]
    refine ⟨.rejected, s, rfl, .inl rfl, fun _ => ⟨rfl, rfl⟩, ?_⟩
    intro htrue
    rw [Bool.and_eq_true_iff] at htrue
    exact absurd htrue.1 hc

/-- Claim C8: session reset is idempotent and safe when no sessions exist:
on a state with no local sessions and no client-store sessions it runs the
clearing tail with no error, and whenever a reset reports no error the
session, proposal, pending-request, result and account collections are all
empty and an immediately repeated reset is a no-op that again reports no
error. -/
theorem C8_resetApp_idempotent (disconnectFails : String → Bool) (s : WCState) :
    ((s.sessions = [] ∧ clientSessionValues s = []) →
      resetApp disconnectFails s = (clearedState s, false)) ∧
    (∀ s2, resetApp disconnectFails s = (s2, false) →
      s2.sessions = [] ∧ s2.sessionProposals = [] ∧ s2.requests = [] ∧
      s2.results = [] ∧ s2.accounts = [] ∧
      resetApp disconnectFails s2 = (s2, false)) := by
  constructor
  · rintro ⟨h1, h2⟩
    unfold resetApp
    rw [h1, h2, disconnectFailures_nil]
    simp
  · intro s2 hr
    unfold resetApp at hr
    split at hr
    · simp at hr
    · split at hr
      · simp at hr
      · have hs2 : s2 = clearedState s := (congrArg Prod.fst hr).symm
        subst hs2
        refine ⟨rfl, rfl, rfl, rfl, rfl, ?_⟩
        unfold resetApp
        rw [show (clearedState s).wcClient = none from rfl]
        rw [disconnectFailures_none, disconnectFailures_none]
        simp
        rfl

/-- A concrete request used by the lifecycle witnesses. -/
def sampleReq : Req := ⟨1, "invokeFunction", ["0xcontract", "transfer"]⟩

/-- A concrete request event used by the lifecycle witnesses. -/
def sampleEvent : RequestEvent := ⟨"topic1", sampleReq⟩

/-- A concrete provider state with an initialized client, one session and
one queued request. -/
def sampleState : WCState :=
  { wcClient := some ⟨[⟨"topic1"⟩]⟩
    sessionProposals := []
    initialized := true
    chains := ["neo3:mainnet"]
    accounts := ["neo3:mainnet:NAddr"]
    sessions := [⟨"topic1"⟩]
    requests := [sampleEvent]
    results := []
    responses := []
    approvalCache := [] }

/-- Witness for C1: resolving the sample request manually when the facade
call throws. -/
theorem C1_manual_resolution_witness :
    (∃ r, approveRequest (Except.error "sign failure") sampleState sampleEvent = .ok r ∧
      r.responses = sampleState.responses ++
        [(sampleEvent.topic,
          formatJsonRpcError sampleEvent.request.id "Failed or Rejected Request")] ∧
      r.responses.length = sampleState.responses.length + 1 ∧
      r.requests = removeFromPending sampleState.requests sampleEvent ∧
      r.requests.countP (fun x => x.request.id == sampleEvent.request.id) = 0) ∧
    (∃ r, rejectRequest sampleState sampleEvent = .ok r ∧
      r.responses = sampleState.responses ++
        [(sampleEvent.topic,
          formatJsonRpcError sampleEvent.request.id "Failed or Rejected Request")] ∧
      r.responses.length = sampleState.responses.length + 1 ∧
      r.requests = removeFromPending sampleState.requests sampleEvent ∧
      r.requests.countP (fun x => x.request.id == sampleEvent.request.id) = 0) :=
  C1_manual_resolution_exactly_once (Except.error "sign failure") sampleState sampleEvent
    (by decide)

/-- Witness for C10: enqueueing the sample event over a queue already
holding its id. -/
theorem C10_askApproval_witness :
    (askApproval sampleState sampleEvent).requests =
      sampleState.requests.filter
        (fun i => i.request.id != sampleEvent.request.id) ++ [sampleEvent] ∧
    (askApproval sampleState sampleEvent).requests.countP
      (fun i => i.request.id == sampleEvent.request.id) = 1 ∧
    (askApproval sampleState sampleEvent).requests.countP
      (fun i => i.request.id == 5) ≤ 1 := by
  have h := C10_askApproval_at_most_one_per_id sampleState sampleEvent
  exact ⟨h.1, h.2.1, h.2.2 5 (by decide)⟩

/-- The sample state with the sample request already in the durable
approval cache. -/
def sampleStateApproved : WCState := { sampleState with approvalCache := [sampleReq] }

/-- Witness for C5: an inbound request whose serialized form is cached is
fulfilled immediately, with a registered callback present but never
consulted. -/
theorem C5_cache_hit_witness :
    (onSessionRequest (Except.ok (JResponse.ok 1 "0xtxid" false))
      (some (fun _ _ _ => false)) sampleStateApproved sampleEvent).facadeInvoked = true ∧
    (onSessionRequest (Except.ok (JResponse.ok 1 "0xtxid" false))
      (some (fun _ _ _ => false)) sampleStateApproved sampleEvent).callbackInvoked = false ∧
    (onSessionRequest (Except.ok (JResponse.ok 1 "0xtxid" false))
      (some (fun _ _ _ => false)) sampleStateApproved sampleEvent).state.requests =
        sampleStateApproved.requests ∧
    (onSessionRequest (Except.ok (JResponse.ok 1 "0xtxid" false))
      (some (fun _ _ _ => false)) sampleStateApproved sampleEvent).state.responses =
        sampleStateApproved.responses ++ [(sampleEvent.topic, JResponse.ok 1 "0xtxid" false)] ∧
    (∃ r, approveRequest (Except.ok (JResponse.ok 1 "0xtxid" false))
        sampleStateApproved sampleEvent = .ok r ∧
      checkApprovedRequest r sampleEvent.request = true) :=
  C5_cache_hit_bypasses (Except.ok (JResponse.ok 1 "0xtxid" false))
    (some (fun _ _ _ => false)) sampleStateApproved sampleEvent (by decide) (by decide)

/-- The spec's concrete proposal scenario: requested chains and methods
all inside the configured lists. -/
def sampleProposal : Proposal := ⟨["neo3:mainnet"], ["invokeFunction"]⟩

/-- Witness for C4 at the spec's concrete accept scenario. -/
theorem C4_proposal_policy_witness :
    ∃ out s2, onSessionProposal ["invokeFunction", "testInvoke"] sampleState
        sampleProposal = .ok (out, s2) ∧
      (out = .rejected ∨ out = .tracked) ∧
      ((sampleProposal.chains.all (fun ch => sampleState.chains.contains ch) &&
        sampleProposal.methods.all
          (fun m => (["invokeFunction", "testInvoke"] : List String).contains m)) = false →
        out = .rejected ∧ s2 = sampleState) ∧
      ((sampleProposal.chains.all (fun ch => sampleState.chains.contains ch) &&
        sampleProposal.methods.all
          (fun m => (["invokeFunction", "testInvoke"] : List String).contains m)) = true →
        out = .tracked ∧
        s2 = { sampleState with
          sessionProposals := sampleState.sessionProposals ++ [sampleProposal] }) :=
  C4_proposal_policy ["invokeFunction", "testInvoke"] sampleState sampleProposal (by decide)

/-- The sample state with no sessions anywhere, for the reset witness. -/
def sampleEmptyState : WCState := { sampleState with sessions := [], wcClient := some ⟨[]⟩ }

/-- Witness for C8: resetting the empty sample state clears everything with
no error, and resetting again is a no-op with no error. -/
theorem C8_resetApp_witness :
    resetApp (fun _ => false) sampleEmptyState = (clearedState sampleEmptyState, false) ∧
    ((clearedState sampleEmptyState).sessions = [] ∧
      (clearedState sampleEmptyState).sessionProposals = [] ∧
      (clearedState sampleEmptyState).requests = [] ∧
      (clearedState sampleEmptyState).results = [] ∧
      (clearedState sampleEmptyState).accounts = [] ∧
      resetApp (fun _ => false) (clearedState sampleEmptyState) =
        (clearedState sampleEmptyState, false)) := by
  have h := C8_resetApp_idempotent (fun _ => false) sampleEmptyState
  have h1 := h.1 ⟨rfl, rfl⟩
  exact ⟨h1, h.2 (clearedState sampleEmptyState) h1⟩

end WalletConnectContext
